import Mathlib

/-!
Verification development for the rust_irc repository.

Strings are modelled as lists of characters (`Str`), adequate for the ASCII
protocol text the codec manipulates.  Rust's `str::split(' ')` is modelled by
`splitOn`, `Vec::join` by `joinSep`, `str::trim` by `trimStr`, and
`str::to_uppercase` by mapping `Char.toUpper` (ASCII case folding).

Fallible Rust functions returning `Result<_, io::Error>` with kind
`InvalidInput` are modelled with `Option` (`none` = the `InvalidInput` error),
except `Message::from_str`, whose result type `PResult` additionally
distinguishes a Rust panic (`parts[1]` indexing and the `unreachable!()` arms
in the source can panic) from the typed error.
-/

set_option maxHeartbeats 1000000
set_option maxRecDepth 8192

abbrev Str := List Char

/-- Convert a Lean string literal to the character-list model. -/
def str (s : String) : Str := s.data

/-- Auxiliary splitter: returns the first piece and the remaining pieces of
splitting on character `c`.  Mirrors Rust `str::split`, which always yields at
least one (possibly empty) piece. -/
def splitAux (c : Char) : Str → Str × List Str
  | [] => ([], [])
  | x :: xs =>
    let r := splitAux c xs
    if x = c then ([], r.1 :: r.2) else (x :: r.1, r.2)

/-- Model of Rust `s.split(c).collect::<Vec<_>>()`. -/
def splitOn (c : Char) (s : Str) : List Str := (splitAux c s).1 :: (splitAux c s).2

/-- Model of Rust `pieces.join(sep)` for a one-character separator. -/
def joinSep (c : Char) : List Str → Str
  | [] => []
  | [p] => p
  | p :: ps => p ++ c :: joinSep c ps

/-- Containment test for a character in a string, model of `str::contains(char)`. -/
def hasCh (c : Char) : Str → Bool
  | [] => false
  | x :: xs => x = c || hasCh c xs

/-- Model of `str::starts_with(char)`. -/
def startsW (c : Char) : Str → Bool
  | [] => false
  | x :: _ => x = c

/-- Model of Rust `str::trim` (ASCII whitespace at both ends). -/
def trimStr (s : Str) : Str :=
  ((s.dropWhile Char.isWhitespace).reverse.dropWhile Char.isWhitespace).reverse

/-- Model of `strip_colon` in `src/message_parse.rs`: reject the empty string,
drop one leading `':'` if present, reject if nothing remains. -/
def stripColon (a : Str) : Option Str :=
  match a with
  | [] => none
  | x :: xs =>
    let b := if x = ':' then xs else x :: xs
    if b = [] then none else some b

/-- The `Command` enum of `src/message_parse.rs` (field payloads are strings or
lists of strings exactly as in the source). -/
inductive Command
  | ADMIN (target : Option Str)
  | AWAY (msg : Option Str)
  | CONNECT (server : Str) (port : Str) (server2 : Str)
  | DIE
  | ENCAP (server : Str) (sub : Str) (args : List Str)
  | ERROR (msg : Str)
  | HELP
  | INFO (target : Option Str)
  | INVITE (nick : Str) (channel : Str)
  | JOIN (channels : List Str) (keys : Option (List Str))
  | KICK (channel : Str) (nick : Str) (msg : Option Str)
  | KILL (nick : Str) (msg : Str)
  | KNOCK (channel : Str) (msg : Option Str)
  | LINKS (server : Option Str) (mask : Option Str)
  | LIST (channels : Option (List Str)) (server : Option Str)
  | LUSERS (mask : Option Str) (server : Option Str)
  | MODE (target : Str) (modestring : Option Str) (args : Option (List Str))
  | MOTD (server : Option Str)
  | NAMES (channels : Option (List Str))
  | NICK (nickname : Str)
  | NOTICE (targets : List Str) (msg : Str)
  | OPER (nick : Str) (password : Str)
  | PART (channels : List Str) (msg : Str)
  | PASS (password : Str)
  | PING (token : Str)
  | PONG (server : Str) (token : Str)
  | PRIVMSG (targets : List Str) (msg : Str)
  | QUIT (msg : Option Str)
  | REHASH
  | SQUIT (server : Option Str) (msg : Str)
  | STATS (query : Str) (server : Option Str)
  | TIME (server : Option Str)
  | TOPIC (channel : Str) (msg : Option Str)
  | TRACE (target : Option Str)
  | USER (username : Str) (mode : Str) (unused : Str) (realname : Str)
  | USERHOST (nicks : List Str)
  | USERIP (nick : Str)
  | USERS (server : Option Str)
  | VERSION (server : Option Str)
  | WALLOPS (msg : Str)
  | WHO (mask : Str)
  | WHOIS (target : Option Str) (nick : Str)
  | UNKNOWN (raw : Str)
  | UNIMPLEMENTED (raw : Str)
deriving DecidableEq, Repr

/-- The body of `Command::from_str` after the input has been split on single
spaces into `parts`; `s` is the whole input (used by the `trim` calls).
Faithful to `src/message_parse.rs` lines 130-225: the verb is `parts[0]`
uppercased; each recognized verb enforces its minimum token count, list
parameters split on commas, trailer-style parameters re-join the remaining
tokens and strip one leading colon; an empty verb is the `InvalidInput` error
(`none`); an unrecognized verb yields `UNKNOWN(s.trim())`; `MOTD` with
parameters yields `UNIMPLEMENTED(s.trim())`. -/
def Command.fromParts (s : Str) (parts : List Str) : Option Command :=
  let verb := (parts.headD []).map Char.toUpper
  if verb = str "DIE" then some .DIE
  else if verb = str "JOIN" then
    match parts with
    | _ :: c :: rest =>
      some (.JOIN (splitOn ',' c)
        (match rest with
         | [k] => some (splitOn ',' k)
         | _ => none))
    | _ => none
  else if verb = str "MOTD" then
    match parts with
    | [_] => some (.MOTD none)
    | _ => some (.UNIMPLEMENTED (trimStr s))
  else if verb = str "NICK" then
    match parts with
    | _ :: n :: _ => some (.NICK n)
    | _ => none
  else if verb = str "PING" then
    match parts with
    | _ :: t :: _ => some (.PING t)
    | _ => none
  else if verb = str "PONG" then
    match parts with
    | _ :: sv :: t :: _ => some (.PONG sv t)
    | _ => none
  else if verb = str "PRIVMSG" then
    match parts with
    | _ :: t :: r0 :: r =>
      (stripColon (joinSep ' ' (r0 :: r))).map (fun m => .PRIVMSG (splitOn ',' t) m)
    | _ => none
  else if verb = str "QUIT" then
    match parts with
    | [_] => some (.QUIT none)
    | _ :: p :: ps =>
      if p = [] then some (.QUIT none)
      else (stripColon (joinSep ' ' (p :: ps))).map (fun m => .QUIT (some m))
    | [] => none
  else if verb = str "REHASH" then some .REHASH
  else if verb = str "USER" then
    match parts with
    | _ :: u :: mo :: un :: r0 :: r =>
      (stripColon (joinSep ' ' (r0 :: r))).map (fun rl => .USER u mo un rl)
    | _ => none
  else if verb = ([] : Str) then none
  else some (.UNKNOWN (trimStr s))

/-- `Command::from_str` of `src/message_parse.rs`: split the input on single
spaces and dispatch on the uppercased first token. -/
def Command.fromStr (s : Str) : Option Command :=
  Command.fromParts s (splitOn ' ' s)

/-- `Command::to_string` of `src/message_parse.rs` lines 229-299.  The arms
that are `todo!()` in the source (unimplemented serializers, which panic if
reached) are modelled as `none`.  `USER`'s realname gets a leading colon
exactly when it contains a space. -/
def Command.toString : Command → Option Str
  | .DIE => some (str "DIE")
  | .JOIN chans none => some (str "JOIN " ++ joinSep ',' chans)
  | .JOIN chans (some keys) =>
      some (str "JOIN " ++ (joinSep ',' chans ++ ' ' :: joinSep ',' keys))
  | .MOTD none => some (str "MOTD")
  | .NICK nickname => some (str "NICK " ++ nickname)
  | .PING token => some (str "PING " ++ token)
  | .PONG server token => some (str "PONG " ++ (server ++ ' ' :: token))
  | .PRIVMSG targets message =>
      some (str "PRIVMSG " ++ (joinSep ',' targets ++ ' ' :: ':' :: message))
  | .QUIT (some reason) => some (str "QUIT :" ++ reason)
  | .QUIT none => some (str "QUIT")
  | .REHASH => some (str "REHASH")
  | .USER username mode un real =>
      some (str "USER " ++ (username ++ ' ' :: (mode ++ ' ' :: (un ++ ' ' ::
        (if hasCh ' ' real then ':' :: real else real)))))
  | .UNKNOWN s => some s
  | .UNIMPLEMENTED s => some s
  | _ => none

/-- The `Side` enum of `src/message_parse.rs`. -/
inductive Side
  | Client
  | Server
  | Unknown
deriving DecidableEq, Repr

/-- The `Message` struct of `src/message_parse.rs`. -/
structure Message where
  tags : Option (List Str)
  source : Option Str
  command : Command
  side : Side
deriving DecidableEq, Repr

/-- Result type for `Message::from_str`, distinguishing a successful parse, the
typed `InvalidInput` error, and a Rust panic. -/
inductive PResult (α : Type)
  | ok (a : α)
  | invalidInput
  | panicked
deriving DecidableEq, Repr

/-- `Message::from_str` of `src/message_parse.rs` lines 317-387.  The source
unconditionally evaluates `parts[1].starts_with(':')`, which panics (index out
of bounds) when the line has fewer than two space-separated tokens; the two
`unreachable!()` arms also panic if reached.  In the tags-without-source branch
the source splits `parts[0]` on `';'` without stripping the leading `'@'` and
leaves `rest` as the empty string. -/
def Message.fromStr (s : Str) : PResult Message :=
  let parts := splitOn ' ' s
  let p0 := parts.headD []
  match parts.get? 1 with
  | none => .panicked
  | some p1 =>
    let finish : Option (List Str) → Option Str → Str → PResult Message :=
      fun tags source rest =>
        match Command.fromStr rest with
        | none => .invalidInput
        | some c => .ok ⟨tags, source, c, Side.Unknown⟩
    match startsW '@' p0, startsW ':' p0, startsW ':' p1 with
    | true, true, _ => .panicked
    | true, false, true =>
        finish (some (splitOn ';' (p0.drop 1))) (some (p1.drop 1))
          (joinSep ' ' (parts.drop 2))
    | true, false, false =>
        finish (some (splitOn ';' p0)) none []
    | false, true, true => .invalidInput
    | false, true, false =>
        finish none (some (p0.drop 1)) (joinSep ' ' (parts.drop 1))
    | false, false, _ =>
        finish none none (joinSep ' ' parts)

/-- `Message::to_string` of `src/message_parse.rs` lines 389-403 (`none` when
the command's serializer is a `todo!()`).  Note that no CR LF is appended. -/
def Message.toString (m : Message) : Option Str :=
  (m.command.toString).map (fun c =>
    match m.tags, m.source with
    | none, none => c
    | none, some source => ':' :: source ++ ' ' :: c
    | some tags, none => '@' :: joinSep ';' tags ++ ' ' :: c
    | some tags, some source =>
        '@' :: joinSep ';' tags ++ ' ' :: ':' :: source ++ ' ' :: c)

/-- CR LF terminator pair. -/
def CRLF : Str := ['\r', '\n']

/-- Whether a frame ends with a CR LF pair. -/
def endsCRLF (s : Str) : Bool :=
  match s.reverse with
  | '\n' :: '\r' :: _ => true
  | _ => false

/-- The `ClientInfo` struct of `src/server.rs` lines 163-169. -/
structure ClientInfo where
  nickname : Str
  username : Str
  realname : Str
  channels : List Str
deriving DecidableEq, Repr

/-- `ClientInfo::to_canonical` of `src/server.rs`. -/
def ClientInfo.toCanonical (info : ClientInfo) (server : Str) : Str :=
  info.nickname ++ '!' :: info.username ++ '@' :: server

/-- Three-digit zero-padded numeric-reply code, model of
`format!("{:0>3}", n)` in `NumericReply::to_string`. -/
def numStr (n : Nat) : Str :=
  let d := Nat.toDigits 10 n
  List.replicate (3 - d.length) '0' ++ d

/-- `IrcConnection::write_numeric` of `src/irc_connection.rs` lines 67-97: the
frame `:<server> <number> <username-or-*> <message>` CR LF. -/
def writeNumeric (server : Str) (info : ClientInfo) (number : Nat) (message : Str) : Str :=
  ':' :: server ++ ' ' :: numStr number ++ ' ' ::
    (if info.username = [] then str "*" else info.username) ++ ' ' :: message ++ CRLF

/-- `IrcConnection::write_numeric_trailer`: numeric with a `:`-prefixed message. -/
def writeNumericTrailer (server : Str) (info : ClientInfo) (number : Nat) (message : Str) : Str :=
  writeNumeric server info number (':' :: message)

/-- `IrcConnection::write_quit` of `src/irc_connection.rs` lines 113-125:
`:<username> QUIT :<reason>` CR LF. -/
def writeQuitFrame (info : ClientInfo) (reason : Str) : Str :=
  ':' :: info.username ++ str " QUIT :" ++ reason ++ CRLF

/-- `IrcConnection::write_error` of `src/irc_connection.rs` lines 127-130: the
source writes `format!("ERROR :{}", error)` with no CR LF terminator. -/
def writeErrorFrame (error : Str) : Str :=
  str "ERROR :" ++ error

/-- `IrcConnection::write_pong` of `src/irc_connection.rs` lines 193-196: the
source writes `format!("PONG {}", self.server_addr.ip())` — no token parameter
and no CR LF terminator (its caller in `src/message_impl.rs` passes a token,
which this signature does not accept). -/
def writePongFrame (server : Str) : Str :=
  str "PONG " ++ server

/-- `IrcConnection::write_registration` of `src/irc_connection.rs` lines
132-177: the five-numeric welcome burst. -/
def registrationFrames (server : Str) (info : ClientInfo) : List Str :=
  [writeNumericTrailer server info 1
      (str "Welcome to the Internet Relay Network " ++ info.toCanonical server),
   writeNumericTrailer server info 2
      (str "Your host is " ++ server ++ str ", running version rust_irc-0.0.0"),
   writeNumericTrailer server info 3
      (str "This server was created... probably 10 seconds ago who cares"),
   writeNumeric server info 4 (server ++ str " rust_irc-0.0.0    "),
   writeNumeric server info 5 (str "CASEMAPPING=ascii :are available on this server")]

/-- `IrcConnection::write_motd` of `src/irc_connection.rs` lines 198-210 (the
source emits code 372 for both the body and the final line). -/
def motdFrames (server : Str) (info : ClientInfo) : List Str :=
  [writeNumeric server info 375 (str "- " ++ server ++ str " Message of the day - "),
   writeNumeric server info 372 (str "- Hi from Rust-IRC!"),
   writeNumeric server info 372 (str "End of /MOTD command")]

/-- `IrcConnection::write_unknown` of `src/irc_connection.rs` lines 179-191. -/
def writeUnknownFrame (server : Str) (info : ClientInfo) (attempt : Str) : Str :=
  writeNumeric server info 421 (str "* " ++ attempt ++ str ": Unknown command")

/-- The `Code` enum of `src/message_impl.rs`. -/
inductive Code
  | Fine
  | Broadcast
  | Exit
deriving DecidableEq, Repr

/-- `Message::apply` of `src/message_impl.rs` lines 13-68, as a pure function
from the message and the session's `ClientInfo` (plus the server address used
by the write helpers) to the updated `ClientInfo`, the returned `Code`, and
the list of frames written to the socket, in order. -/
def applyModel (m : Message) (info : ClientInfo) (server : Str) :
    ClientInfo × Code × List Str :=
  match m.command with
  | .NICK nickname => ({ info with nickname := nickname }, .Fine, [])
  | .USER username _ _ realname =>
      let info2 := { info with username := username, realname := realname }
      (info2, .Fine, registrationFrames server info2)
  | .PING _ => (info, .Fine, [writePongFrame server])
  | .MOTD _ => (info, .Fine, motdFrames server info)
  | .QUIT _ => (info, .Exit, [writeErrorFrame (str "Goodbye!")])
  | .PRIVMSG _ _ =>
      match m.side with
      | .Client => (info, .Broadcast, [])
      | .Server => (info, .Fine, [(Message.toString m).getD []])
      | .Unknown => (info, .Fine, [])
  | .JOIN targets _ =>
      match m.side with
      | .Client =>
          ({ info with channels := info.channels ++ targets }, .Broadcast,
            [(Message.toString m).getD []])
      | .Server => (info, .Fine, [(Message.toString m).getD []])
      | .Unknown => (info, .Fine, [])
  | .UNKNOWN attempt => (info, .Fine, [writeUnknownFrame server info attempt])
  | .UNIMPLEMENTED attempt => (info, .Fine, [writeUnknownFrame server info attempt])
  | _ => (info, .Fine, [])

/-- The `ServerClientBroadcast` enum of `src/server.rs` lines 13-22. -/
inductive ServerClientBroadcast
  | PrivMessage (channels : List Str) (message : Message)
  | Join (message : Message)
deriving DecidableEq, Repr

/-- The broadcast-delivery filter of `ClientConnection::run`, `src/server.rs`
lines 215-233: a `PrivMessage` envelope is passed on iff the message has a
source that differs from this session's username and some joined channel of
this session occurs in the envelope's channel list; a `Join` envelope is
always passed on. -/
def broadcastFilter (b : ServerClientBroadcast) (info : ClientInfo) : Option Message :=
  match b with
  | .PrivMessage channels message =>
      match message.source with
      | some source =>
          if source ≠ info.username ∧ info.channels.any (fun a => channels.contains a) then
            some message
          else none
      | none => none
  | .Join message => some message

/-- Outcome of one inbound-line iteration of `ClientConnection::run`. -/
inductive StepOutcome
  | continued (info : ClientInfo) (broadcast : Option Message)
  | exitedOk
  | errored
  | panicked
deriving DecidableEq, Repr

/-- The inbound-line branch of `ClientConnection::run`, `src/server.rs` lines
203-213 and 243-270: parse the line (the `?` operator propagates a parse error
out of `run`, terminating the session), tag it `Side::Client`, apply it, and on
`Code::Broadcast` rewrite the source to this session's username and the side to
`Side::Server` before handing the message to the hub. -/
def handleInboundLine (line : Str) (info : ClientInfo) (server : Str) :
    StepOutcome × List Str :=
  match Message.fromStr line with
  | .panicked => (.panicked, [])
  | .invalidInput => (.errored, [])
  | .ok m0 =>
    let m := { m0 with side := Side.Client }
    let res := applyModel m info server
    match res.2.1 with
    | .Fine => (.continued res.1 none, res.2.2)
    | .Broadcast =>
        (.continued res.1
          (some { m with source := some res.1.username, side := Side.Server }), res.2.2)
    | .Exit => (.exitedOk, res.2.2)

/-- Commands whose `apply` handler mutates the session's `ClientInfo`
(`NICK`, `USER`, `JOIN`). -/
def touchesInfo : Command → Bool
  | .NICK _ => true
  | .USER _ _ _ _ => true
  | .JOIN _ _ => true
  | _ => false

/-- Tokens valid as list elements on the wire: no separator space, no comma. -/
def tokOk (t : Str) : Bool := !(hasCh ' ' t) && !(hasCh ',' t)

/-- The verbs `Command::from_str` recognizes (uppercased), together with the
empty verb, all of which dispatch away from the `UNKNOWN` fallback arm. -/
def recognizedVerbs : List Str :=
  [str "DIE", str "JOIN", str "MOTD", str "NICK", str "PING", str "PONG",
   str "PRIVMSG", str "QUIT", str "REHASH", str "USER", []]

/-- Well-formedness of a command value for serialization: the shape conditions
under which `Command::to_string` is an exact right inverse of
`Command::from_str`.  Single-token fields contain no spaces; list fields are
non-empty with space- and comma-free elements; message payloads are non-empty;
`USER`'s realname must not begin with a colon unless it contains a space (the
serializer only re-adds the colon in the latter case); `UNKNOWN` payloads must
be trimmed and their first token must not re-parse as a recognized verb;
`UNIMPLEMENTED` payloads must be trimmed `MOTD` lines with parameters. -/
def Command.wellFormed : Command → Bool
  | .DIE => true
  | .REHASH => true
  | .MOTD none => true
  | .NICK n => !(hasCh ' ' n)
  | .PING t => !(hasCh ' ' t)
  | .PONG sv t => !(hasCh ' ' sv) && !(hasCh ' ' t)
  | .JOIN chans keys =>
      !chans.isEmpty && chans.all tokOk &&
      (match keys with
       | none => true
       | some ks => !ks.isEmpty && ks.all tokOk)
  | .PRIVMSG targets msg => !targets.isEmpty && targets.all tokOk && !msg.isEmpty
  | .QUIT none => true
  | .QUIT (some msg) => !msg.isEmpty
  | .USER u mo un r =>
      !(hasCh ' ' u) && !(hasCh ' ' mo) && !(hasCh ' ' un) && !r.isEmpty &&
      (hasCh ' ' r || !(startsW ':' r))
  | .UNKNOWN s =>
      !(decide (((splitOn ' ' s).headD []).map Char.toUpper ∈ recognizedVerbs)) &&
      decide (trimStr s = s)
  | .UNIMPLEMENTED s =>
      decide (((splitOn ' ' s).headD []).map Char.toUpper = str "MOTD") &&
      decide (2 ≤ (splitOn ' ' s).length) && decide (trimStr s = s)
  | _ => false

theorem splitAux_not_mem {c : Char} {s : Str} (h : c ∉ s) : splitAux c s = (s, []) := by
  induction s with
  | nil => rfl
  | cons x xs ih =>
    have hx : x ≠ c := fun e => h (e ▸ List.mem_cons_self x xs)
    simp [splitAux, hx, ih (fun hm => h (List.mem_cons_of_mem x hm))]

theorem splitOn_not_mem {c : Char} {s : Str} (h : c ∉ s) : splitOn c s = [s] := by
  simp [splitOn, splitAux_not_mem h]

theorem splitAux_sep {c : Char} (a b : Str) (h : c ∉ a) :
    splitAux c (a ++ c :: b) = (a, splitOn c b) := by
  induction a with
  | nil => simp [splitAux, splitOn]
  | cons x xs ih =>
    have hx : x ≠ c := fun e => h (e ▸ List.mem_cons_self x xs)
    simp [splitAux, hx, ih (fun hm => h (List.mem_cons_of_mem x hm))]

theorem splitOn_sep {c : Char} (a b : Str) (h : c ∉ a) :
    splitOn c (a ++ c :: b) = a :: splitOn c b := by
  simp [splitOn, splitAux_sep a b h]

theorem joinSep_single (c : Char) (p : Str) : joinSep c [p] = p := rfl

theorem joinSep_cons_cons (c : Char) (p q : Str) (ps : List Str) :
    joinSep c (p :: q :: ps) = p ++ c :: joinSep c (q :: ps) := rfl

theorem joinSep_cons_head (c x : Char) (p : Str) (ps : List Str) :
    joinSep c ((x :: p) :: ps) = x :: joinSep c (p :: ps) := by
  cases ps with
  | nil => rfl
  | cons q qs => rfl

theorem splitAux_cons_self (c : Char) (xs : Str) :
    splitAux c (c :: xs) = ([], (splitAux c xs).1 :: (splitAux c xs).2) := by
  simp only [splitAux]
  simp

theorem splitAux_cons_ne {c x : Char} (xs : Str) (hx : x ≠ c) :
    splitAux c (x :: xs) = (x :: (splitAux c xs).1, (splitAux c xs).2) := by
  simp only [splitAux]
  rw [if_neg hx]

theorem joinSep_splitAux (c : Char) (s : Str) :
    joinSep c ((splitAux c s).1 :: (splitAux c s).2) = s := by
  induction s with
  | nil => rfl
  | cons x xs ih =>
    by_cases hx : x = c
    · subst hx
      rw [splitAux_cons_self, joinSep_cons_cons, ih]
      rfl
    · rw [splitAux_cons_ne xs hx, joinSep_cons_head, ih]

theorem joinSep_splitOn (c : Char) (s : Str) : joinSep c (splitOn c s) = s :=
  joinSep_splitAux c s

theorem splitOn_joinSep {c : Char} {ps : List Str} (h1 : ps ≠ [])
    (h2 : ∀ p ∈ ps, c ∉ p) : splitOn c (joinSep c ps) = ps := by
  induction ps with
  | nil => exact absurd rfl h1
  | cons p qs ih =>
    cases qs with
    | nil =>
      rw [joinSep_single, splitOn_not_mem (h2 p (List.mem_cons_self p []))]
    | cons q rs =>
      rw [joinSep_cons_cons,
        splitOn_sep p _ (h2 p (List.mem_cons_self p _)),
        ih (by simp) (fun r hr => h2 r (List.mem_cons_of_mem p hr))]

theorem not_mem_joinSep {c x : Char} {ps : List Str} (hx : x ≠ c)
    (h : ∀ p ∈ ps, x ∉ p) : x ∉ joinSep c ps := by
  induction ps with
  | nil => simp [joinSep]
  | cons p qs ih =>
    cases qs with
    | nil =>
      rw [joinSep_single]
      exact h p (List.mem_cons_self p [])
    | cons q rs =>
      rw [joinSep_cons_cons]
      intro hm
      rcases List.mem_append.1 hm with hm | hm
      · exact h p (List.mem_cons_self p _) hm
      · rcases List.mem_cons.1 hm with hm | hm
        · exact hx hm
        · exact ih (fun r hr => h r (List.mem_cons_of_mem p hr)) hm

theorem hasCh_eq_false_iff {c : Char} {s : Str} : hasCh c s = false ↔ c ∉ s := by
  induction s with
  | nil => simp [hasCh]
  | cons x xs ih =>
    simp only [hasCh, Bool.or_eq_false_iff, decide_eq_false_iff_not, ih,
      List.mem_cons, not_or]
    constructor
    · rintro ⟨h1, h2⟩
      exact ⟨fun e => h1 e.symm, h2⟩
    · rintro ⟨h1, h2⟩
      exact ⟨fun e => h1 e.symm, h2⟩

theorem hasCh_ne_nil {c : Char} {s : Str} (h : hasCh c s = true) : s ≠ [] := by
  intro e
  subst e
  simp [hasCh] at h

theorem stripColon_colon_cons (s : Str) :
    stripColon (':' :: s) = if s = [] then none else some s := by
  cases s with
  | nil => rfl
  | cons x xs => rfl

theorem stripColon_plain {s : Str} (h1 : s ≠ []) (h2 : startsW ':' s = false) :
    stripColon s = some s := by
  cases s with
  | nil => exact absurd rfl h1
  | cons x xs =>
    have hx : x ≠ ':' := by simpa [startsW] using h2
    simp [stripColon, hx]

theorem isEmpty_false_ne {α : Type} {l : List α} (h : l.isEmpty = false) : l ≠ [] := by
  cases l <;> simp_all

theorem tokOk_space {t : Str} (h : tokOk t = true) : ' ' ∉ t := by
  simp only [tokOk, Bool.and_eq_true, Bool.not_eq_true'] at h
  exact hasCh_eq_false_iff.1 h.1

theorem tokOk_comma {t : Str} (h : tokOk t = true) : ',' ∉ t := by
  simp only [tokOk, Bool.and_eq_true, Bool.not_eq_true'] at h
  exact hasCh_eq_false_iff.1 h.2

theorem any_contains_iff {l L : List Str} :
    (l.any fun a => L.contains a) = true ↔ ∃ a ∈ l, a ∈ L := by
  simp [List.any_eq_true, List.contains, List.elem_iff]

theorem fromParts_join (s c : Str) (rest : List Str) :
    Command.fromParts s (str "JOIN" :: c :: rest) =
      some (.JOIN (splitOn ',' c)
        (match rest with
         | [k] => some (splitOn ',' k)
         | _ => none)) := rfl

theorem fromParts_nick (s n : Str) (rest : List Str) :
    Command.fromParts s (str "NICK" :: n :: rest) = some (.NICK n) := rfl

theorem fromParts_ping (s t : Str) (rest : List Str) :
    Command.fromParts s (str "PING" :: t :: rest) = some (.PING t) := rfl

theorem fromParts_pong (s sv t : Str) (rest : List Str) :
    Command.fromParts s (str "PONG" :: sv :: t :: rest) = some (.PONG sv t) := rfl

theorem fromParts_privmsg (s t r0 : Str) (r : List Str) :
    Command.fromParts s (str "PRIVMSG" :: t :: r0 :: r) =
      (stripColon (joinSep ' ' (r0 :: r))).map (fun m => .PRIVMSG (splitOn ',' t) m) := rfl

theorem fromParts_quit_cons (s p : Str) (ps : List Str) :
    Command.fromParts s (str "QUIT" :: p :: ps) =
      (if p = [] then some (.QUIT none)
       else (stripColon (joinSep ' ' (p :: ps))).map (fun m => .QUIT (some m))) := rfl

theorem fromParts_user (s u mo un r0 : Str) (r : List Str) :
    Command.fromParts s (str "USER" :: u :: mo :: un :: r0 :: r) =
      (stripColon (joinSep ' ' (r0 :: r))).map (fun rl => .USER u mo un rl) := rfl

theorem roundtrip_nick (n : Str) (hn : ' ' ∉ n) :
    (Command.toString (.NICK n)).bind Command.fromStr = some (.NICK n) := by
  show Command.fromParts (str "NICK" ++ ' ' :: n) (splitOn ' ' (str "NICK" ++ ' ' :: n))
      = some (.NICK n)
  rw [splitOn_sep (str "NICK") n (by decide), splitOn_not_mem hn]
  exact fromParts_nick _ _ _

theorem roundtrip_ping (t : Str) (ht : ' ' ∉ t) :
    (Command.toString (.PING t)).bind Command.fromStr = some (.PING t) := by
  show Command.fromParts (str "PING" ++ ' ' :: t) (splitOn ' ' (str "PING" ++ ' ' :: t))
      = some (.PING t)
  rw [splitOn_sep (str "PING") t (by decide), splitOn_not_mem ht]
  exact fromParts_ping _ _ _

theorem roundtrip_pong (sv t : Str) (hsv : ' ' ∉ sv) (ht : ' ' ∉ t) :
    (Command.toString (.PONG sv t)).bind Command.fromStr = some (.PONG sv t) := by
  show Command.fromParts (str "PONG" ++ ' ' :: (sv ++ ' ' :: t))
      (splitOn ' ' (str "PONG" ++ ' ' :: (sv ++ ' ' :: t))) = some (.PONG sv t)
  rw [splitOn_sep (str "PONG") _ (by decide), splitOn_sep sv t hsv, splitOn_not_mem ht]
  exact fromParts_pong _ _ _ _

theorem roundtrip_join_none (chans : List Str) (hne : chans ≠ [])
    (hsp : ∀ p ∈ chans, ' ' ∉ p) (hcm : ∀ p ∈ chans, ',' ∉ p) :
    (Command.toString (.JOIN chans none)).bind Command.fromStr = some (.JOIN chans none) := by
  show Command.fromParts (str "JOIN" ++ ' ' :: joinSep ',' chans)
      (splitOn ' ' (str "JOIN" ++ ' ' :: joinSep ',' chans)) = some (.JOIN chans none)
  rw [splitOn_sep (str "JOIN") _ (by decide),
    splitOn_not_mem (not_mem_joinSep (by decide) hsp), fromParts_join,
    splitOn_joinSep hne hcm]

theorem roundtrip_join_some (chans ks : List Str) (hne : chans ≠ []) (hkne : ks ≠ [])
    (hsp : ∀ p ∈ chans, ' ' ∉ p) (hcm : ∀ p ∈ chans, ',' ∉ p)
    (hksp : ∀ p ∈ ks, ' ' ∉ p) (hkcm : ∀ p ∈ ks, ',' ∉ p) :
    (Command.toString (.JOIN chans (some ks))).bind Command.fromStr
      = some (.JOIN chans (some ks)) := by
  show Command.fromParts (str "JOIN" ++ ' ' :: (joinSep ',' chans ++ ' ' :: joinSep ',' ks))
      (splitOn ' ' (str "JOIN" ++ ' ' :: (joinSep ',' chans ++ ' ' :: joinSep ',' ks)))
      = some (.JOIN chans (some ks))
  rw [splitOn_sep (str "JOIN") _ (by decide),
    splitOn_sep _ _ (not_mem_joinSep (by decide) hsp),
    splitOn_not_mem (not_mem_joinSep (by decide) hksp), fromParts_join,
    splitOn_joinSep hne hcm]
  show some (Command.JOIN chans (some (splitOn ',' (joinSep ',' ks))))
      = some (Command.JOIN chans (some ks))
  rw [splitOn_joinSep hkne hkcm]

theorem roundtrip_privmsg (ts : List Str) (m : Str) (hne : ts ≠ []) (hm : m ≠ [])
    (hsp : ∀ p ∈ ts, ' ' ∉ p) (hcm : ∀ p ∈ ts, ',' ∉ p) :
    (Command.toString (.PRIVMSG ts m)).bind Command.fromStr = some (.PRIVMSG ts m) := by
  show Command.fromParts (str "PRIVMSG" ++ ' ' :: (joinSep ',' ts ++ ' ' :: ':' :: m))
      (splitOn ' ' (str "PRIVMSG" ++ ' ' :: (joinSep ',' ts ++ ' ' :: ':' :: m)))
      = some (.PRIVMSG ts m)
  rw [splitOn_sep (str "PRIVMSG") _ (by decide),
    splitOn_sep _ _ (not_mem_joinSep (by decide) hsp),
    show splitOn ' ' (':' :: m)
        = (':' :: (splitAux ' ' m).1) :: (splitAux ' ' m).2 from rfl,
    fromParts_privmsg, joinSep_cons_head, joinSep_splitAux, stripColon_colon_cons,
    if_neg hm]
  simp [splitOn_joinSep hne hcm]

theorem roundtrip_quit_some (m : Str) (hm : m ≠ []) :
    (Command.toString (.QUIT (some m))).bind Command.fromStr = some (.QUIT (some m)) := by
  show Command.fromParts (str "QUIT" ++ ' ' :: ':' :: m)
      (splitOn ' ' (str "QUIT" ++ ' ' :: ':' :: m)) = some (.QUIT (some m))
  rw [splitOn_sep (str "QUIT") _ (by decide),
    show splitOn ' ' (':' :: m)
        = (':' :: (splitAux ' ' m).1) :: (splitAux ' ' m).2 from rfl,
    fromParts_quit_cons, if_neg (by simp), joinSep_cons_head, joinSep_splitAux,
    stripColon_colon_cons, if_neg hm]
  rfl

theorem roundtrip_user_space (u mo un r : Str) (hu : ' ' ∉ u) (hmo : ' ' ∉ mo)
    (hun : ' ' ∉ un) (hr : r ≠ []) (hsp : hasCh ' ' r = true) :
    (Command.toString (.USER u mo un r)).bind Command.fromStr
      = some (.USER u mo un r) := by
  have ht : Command.toString (.USER u mo un r)
      = some (str "USER " ++ (u ++ ' ' :: (mo ++ ' ' :: (un ++ ' ' :: (':' :: r))))) := by
    simp only [Command.toString]
    rw [if_pos hsp]
  rw [ht]
  show Command.fromParts (str "USER" ++ ' ' :: (u ++ ' ' :: (mo ++ ' ' :: (un ++ ' ' :: ':' :: r))))
      (splitOn ' ' (str "USER" ++ ' ' :: (u ++ ' ' :: (mo ++ ' ' :: (un ++ ' ' :: ':' :: r)))))
      = some (.USER u mo un r)
  rw [splitOn_sep (str "USER") _ (by decide), splitOn_sep u _ hu, splitOn_sep mo _ hmo,
    splitOn_sep un _ hun,
    show splitOn ' ' (':' :: r)
        = (':' :: (splitAux ' ' r).1) :: (splitAux ' ' r).2 from rfl,
    fromParts_user, joinSep_cons_head, joinSep_splitAux, stripColon_colon_cons,
    if_neg hr]
  rfl

theorem roundtrip_user_plain (u mo un r : Str) (hu : ' ' ∉ u) (hmo : ' ' ∉ mo)
    (hun : ' ' ∉ un) (hr : r ≠ []) (hsp : hasCh ' ' r = false)
    (hcolon : startsW ':' r = false) :
    (Command.toString (.USER u mo un r)).bind Command.fromStr
      = some (.USER u mo un r) := by
  have ht : Command.toString (.USER u mo un r)
      = some (str "USER " ++ (u ++ ' ' :: (mo ++ ' ' :: (un ++ ' ' :: r)))) := by
    simp only [Command.toString]
    rw [if_neg (by simp [hsp])]
  rw [ht]
  show Command.fromParts (str "USER" ++ ' ' :: (u ++ ' ' :: (mo ++ ' ' :: (un ++ ' ' :: r))))
      (splitOn ' ' (str "USER" ++ ' ' :: (u ++ ' ' :: (mo ++ ' ' :: (un ++ ' ' :: r)))))
      = some (.USER u mo un r)
  rw [splitOn_sep (str "USER") _ (by decide), splitOn_sep u _ hu, splitOn_sep mo _ hmo,
    splitOn_sep un _ hun, splitOn_not_mem (hasCh_eq_false_iff.1 hsp),
    fromParts_user, joinSep_single, stripColon_plain hr hcolon]
  rfl

theorem roundtrip_unknown (s : Str)
    (hv : ((splitOn ' ' s).headD []).map Char.toUpper ∉ recognizedVerbs)
    (htrim : trimStr s = s) :
    (Command.toString (.UNKNOWN s)).bind Command.fromStr = some (.UNKNOWN s) := by
  have h1 : ¬((splitOn ' ' s).headD []).map Char.toUpper = str "DIE" :=
    fun e => hv (by rw [e]; decide)
  have h2 : ¬((splitOn ' ' s).headD []).map Char.toUpper = str "JOIN" :=
    fun e => hv (by rw [e]; decide)
  have h3 : ¬((splitOn ' ' s).headD []).map Char.toUpper = str "MOTD" :=
    fun e => hv (by rw [e]; decide)
  have h4 : ¬((splitOn ' ' s).headD []).map Char.toUpper = str "NICK" :=
    fun e => hv (by rw [e]; decide)
  have h5 : ¬((splitOn ' ' s).headD []).map Char.toUpper = str "PING" :=
    fun e => hv (by rw [e]; decide)
  have h6 : ¬((splitOn ' ' s).headD []).map Char.toUpper = str "PONG" :=
    fun e => hv (by rw [e]; decide)
  have h7 : ¬((splitOn ' ' s).headD []).map Char.toUpper = str "PRIVMSG" :=
    fun e => hv (by rw [e]; decide)
  have h8 : ¬((splitOn ' ' s).headD []).map Char.toUpper = str "QUIT" :=
    fun e => hv (by rw [e]; decide)
  have h9 : ¬((splitOn ' ' s).headD []).map Char.toUpper = str "REHASH" :=
    fun e => hv (by rw [e]; decide)
  have h10 : ¬((splitOn ' ' s).headD []).map Char.toUpper = str "USER" :=
    fun e => hv (by rw [e]; decide)
  have h11 : ¬((splitOn ' ' s).headD []).map Char.toUpper = ([] : Str) :=
    fun e => hv (by rw [e]; decide)
  show Command.fromParts s (splitOn ' ' s) = some (.UNKNOWN s)
  simp only [Command.fromParts]
  rw [if_neg h1, if_neg h2, if_neg h3, if_neg h4, if_neg h5, if_neg h6, if_neg h7,
    if_neg h8, if_neg h9, if_neg h10, if_neg h11, htrim]

theorem roundtrip_unimplemented (s : Str)
    (hv : ((splitOn ' ' s).headD []).map Char.toUpper = str "MOTD")
    (hlen : 2 ≤ (splitOn ' ' s).length) (htrim : trimStr s = s) :
    (Command.toString (.UNIMPLEMENTED s)).bind Command.fromStr
      = some (.UNIMPLEMENTED s) := by
  show Command.fromParts s (splitOn ' ' s) = some (.UNIMPLEMENTED s)
  simp only [Command.fromParts]
  rw [if_neg (by rw [hv]; decide), if_neg (by rw [hv]; decide), if_pos hv]
  rcases e : (splitAux ' ' s).2 with _ | ⟨q, qs⟩
  · exfalso
    rw [show splitOn ' ' s = (splitAux ' ' s).1 :: (splitAux ' ' s).2 from rfl, e] at hlen
    simp at hlen
  · rw [show splitOn ' ' s = (splitAux ' ' s).1 :: (splitAux ' ' s).2 from rfl, e, htrim]

/-- Claim C1, counterexample.  The parse/serialize round-trip fails as stated:
the parseable value `USER u 0 * ::x` (realname `:x`, colon-prefixed and
space-free) serializes to `USER u 0 * :x`, which re-parses with realname `x`;
the parseable value `UNKNOWN "DIE"` (from the line `"\tDIE"`) serializes to
`DIE`, which re-parses as the `DIE` command; and the well-formed line `QUIT x`
re-serializes as `QUIT :x`, so `serialize (parse L) = L` also fails. -/
theorem c1_roundtrip_counterexample :
    Command.fromStr (str "USER u 0 * ::x")
        = some (.USER (str "u") (str "0") (str "*") (str ":x"))
    ∧ Command.toString (.USER (str "u") (str "0") (str "*") (str ":x"))
        = some (str "USER u 0 * :x")
    ∧ Command.fromStr (str "USER u 0 * :x")
        = some (.USER (str "u") (str "0") (str "*") (str "x"))
    ∧ (Command.USER (str "u") (str "0") (str "*") (str "x"))
        ≠ .USER (str "u") (str "0") (str "*") (str ":x")
    ∧ Command.fromStr (str "\tDIE") = some (.UNKNOWN (str "DIE"))
    ∧ Command.toString (.UNKNOWN (str "DIE")) = some (str "DIE")
    ∧ Command.fromStr (str "DIE") = some .DIE
    ∧ Command.fromStr (str "QUIT x") = some (.QUIT (some (str "x")))
    ∧ Command.toString (.QUIT (some (str "x"))) = some (str "QUIT :x")
    ∧ str "QUIT :x" ≠ str "QUIT x" := by
  decide

/-- Claim C1, amended.  For every command value that is well formed for
serialization (`Command.wellFormed`: single-token fields without spaces,
non-empty comma-free list elements, non-empty message payloads, `USER` realname
not colon-prefixed unless it contains a space, `UNKNOWN`/`UNIMPLEMENTED`
payloads trimmed with a first token that re-parses to the same classification),
parsing its serialization returns the same command value. -/
theorem c1_roundtrip_amended (cmd : Command) (h : cmd.wellFormed = true) :
    (Command.toString cmd).bind Command.fromStr = some cmd := by
  cases cmd with
  | DIE => decide
  | REHASH => decide
  | MOTD sv =>
    cases sv with
    | none => decide
    | some x => exact absurd h (by simp [Command.wellFormed])
  | NICK n =>
    simp only [Command.wellFormed, Bool.not_eq_true'] at h
    exact roundtrip_nick n (hasCh_eq_false_iff.1 h)
  | PING t =>
    simp only [Command.wellFormed, Bool.not_eq_true'] at h
    exact roundtrip_ping t (hasCh_eq_false_iff.1 h)
  | PONG sv t =>
    simp only [Command.wellFormed, Bool.and_eq_true, Bool.not_eq_true'] at h
    exact roundtrip_pong sv t (hasCh_eq_false_iff.1 h.1) (hasCh_eq_false_iff.1 h.2)
  | JOIN chans keys =>
    cases keys with
    | none =>
      simp only [Command.wellFormed, Bool.and_eq_true, Bool.not_eq_true',
        List.all_eq_true] at h
      exact roundtrip_join_none chans (isEmpty_false_ne h.1.1)
        (fun p hp => tokOk_space (h.1.2 p hp)) (fun p hp => tokOk_comma (h.1.2 p hp))
    | some ks =>
      simp only [Command.wellFormed, Bool.and_eq_true, Bool.not_eq_true',
        List.all_eq_true] at h
      exact roundtrip_join_some chans ks (isEmpty_false_ne h.1.1)
        (isEmpty_false_ne h.2.1)
        (fun p hp => tokOk_space (h.1.2 p hp)) (fun p hp => tokOk_comma (h.1.2 p hp))
        (fun p hp => tokOk_space (h.2.2 p hp)) (fun p hp => tokOk_comma (h.2.2 p hp))
  | PRIVMSG ts m =>
    simp only [Command.wellFormed, Bool.and_eq_true, Bool.not_eq_true',
      List.all_eq_true] at h
    exact roundtrip_privmsg ts m (isEmpty_false_ne h.1.1) (isEmpty_false_ne h.2)
      (fun p hp => tokOk_space (h.1.2 p hp)) (fun p hp => tokOk_comma (h.1.2 p hp))
  | QUIT m =>
    cases m with
    | none => decide
    | some m =>
      simp only [Command.wellFormed, Bool.not_eq_true'] at h
      exact roundtrip_quit_some m (isEmpty_false_ne h)
  | USER u mo un r =>
    simp only [Command.wellFormed, Bool.and_eq_true, Bool.not_eq_true',
      Bool.or_eq_true] at h
    obtain ⟨⟨⟨⟨hu, hmo⟩, hun⟩, hrne⟩, halt⟩ := h
    by_cases hsp : hasCh ' ' r = true
    · exact roundtrip_user_space u mo un r (hasCh_eq_false_iff.1 hu)
        (hasCh_eq_false_iff.1 hmo) (hasCh_eq_false_iff.1 hun)
        (isEmpty_false_ne hrne) hsp
    · have hsp2 : hasCh ' ' r = false := by
        cases e : hasCh ' ' r
        · rfl
        · exact absurd e hsp
      have hcolon : startsW ':' r = false := by
        rcases halt with hl | hl
        · exact absurd hl hsp
        · simpa using hl
      exact roundtrip_user_plain u mo un r (hasCh_eq_false_iff.1 hu)
        (hasCh_eq_false_iff.1 hmo) (hasCh_eq_false_iff.1 hun)
        (isEmpty_false_ne hrne) hsp2 hcolon
  | UNKNOWN s =>
    simp only [Command.wellFormed, Bool.and_eq_true, Bool.not_eq_true',
      decide_eq_false_iff_not, decide_eq_true_eq] at h
    exact roundtrip_unknown s h.1 h.2
  | UNIMPLEMENTED s =>
    simp only [Command.wellFormed, Bool.and_eq_true, decide_eq_true_eq] at h
    exact roundtrip_unimplemented s h.1.1 h.1.2 h.2
  | ADMIN x => exact absurd h (by simp [Command.wellFormed])
  | AWAY x => exact absurd h (by simp [Command.wellFormed])
  | CONNECT a b c => exact absurd h (by simp [Command.wellFormed])
  | ENCAP a b c => exact absurd h (by simp [Command.wellFormed])
  | ERROR a => exact absurd h (by simp [Command.wellFormed])
  | HELP => exact absurd h (by simp [Command.wellFormed])
  | INFO a => exact absurd h (by simp [Command.wellFormed])
  | INVITE a b => exact absurd h (by simp [Command.wellFormed])
  | KICK a b c => exact absurd h (by simp [Command.wellFormed])
  | KILL a b => exact absurd h (by simp [Command.wellFormed])
  | KNOCK a b => exact absurd h (by simp [Command.wellFormed])
  | LINKS a b => exact absurd h (by simp [Command.wellFormed])
  | LIST a b => exact absurd h (by simp [Command.wellFormed])
  | LUSERS a b => exact absurd h (by simp [Command.wellFormed])
  | MODE a b c => exact absurd h (by simp [Command.wellFormed])
  | NAMES a => exact absurd h (by simp [Command.wellFormed])
  | NOTICE a b => exact absurd h (by simp [Command.wellFormed])
  | OPER a b => exact absurd h (by simp [Command.wellFormed])
  | PART a b => exact absurd h (by simp [Command.wellFormed])
  | PASS a => exact absurd h (by simp [Command.wellFormed])
  | SQUIT a b => exact absurd h (by simp [Command.wellFormed])
  | STATS a b => exact absurd h (by simp [Command.wellFormed])
  | TIME a => exact absurd h (by simp [Command.wellFormed])
  | TOPIC a b => exact absurd h (by simp [Command.wellFormed])
  | TRACE a => exact absurd h (by simp [Command.wellFormed])
  | USERHOST a => exact absurd h (by simp [Command.wellFormed])
  | USERIP a => exact absurd h (by simp [Command.wellFormed])
  | USERS a => exact absurd h (by simp [Command.wellFormed])
  | VERSION a => exact absurd h (by simp [Command.wellFormed])
  | WALLOPS a => exact absurd h (by simp [Command.wellFormed])
  | WHO a => exact absurd h (by simp [Command.wellFormed])
  | WHOIS a b => exact absurd h (by simp [Command.wellFormed])

/-- Claim C1, witness for the amended round-trip theorem at the concrete
command `PRIVMSG #meow :Hi there`. -/
theorem c1_roundtrip_amended_witness :
    Command.wellFormed (.PRIVMSG [str "#meow"] (str "Hi there")) = true
    ∧ (Command.toString (.PRIVMSG [str "#meow"] (str "Hi there"))).bind Command.fromStr
        = some (.PRIVMSG [str "#meow"] (str "Hi there")) :=
  ⟨by decide, c1_roundtrip_amended (.PRIVMSG [str "#meow"] (str "Hi there")) (by decide)⟩

/-- Claim C2.  `Message::from_str` does not satisfy the no-panic property: on
the in-bounds input `"QUIT"` (a line with a single space-separated token) the
source indexes `parts[1]` out of bounds and panics instead of returning a
`Message` or an `InvalidInput` error. -/
theorem c2_message_parse_panics :
    Message.fromStr (str "QUIT") = PResult.panicked := by
  decide

/-- Claim C3, counterexample.  A line that fails to parse (here `":a :b"`,
rejected with `InvalidInput` by `Message::from_str`) is not dropped with the
session continuing: the inbound-line branch of `ClientConnection::run`
propagates the error, terminating the session. -/
theorem c3_parse_error_counterexample :
    Message.fromStr (str ":a :b") = PResult.invalidInput
    ∧ (handleInboundLine (str ":a :b") ⟨[], [], [], []⟩ (str "srv")).1
        = StepOutcome.errored := by
  decide

/-- Claim C3, amended.  A parse error on an inbound line terminates the
session: whenever `Message::from_str` returns the `InvalidInput` error, the
inbound-line branch of `ClientConnection::run` returns that error from the
main loop (writing nothing), rather than dropping the line and continuing. -/
theorem c3_parse_error_amended (line : Str) (info : ClientInfo) (server : Str)
    (h : Message.fromStr line = .invalidInput) :
    handleInboundLine line info server = (.errored, []) := by
  simp [handleInboundLine, h]

/-- Claim C3, witness for the amended theorem at the concrete line `":a :b"`. -/
theorem c3_parse_error_amended_witness :
    handleInboundLine (str ":a :b") ⟨[], [], [], []⟩ (str "srv")
      = (StepOutcome.errored, []) :=
  c3_parse_error_amended (str ":a :b") ⟨[], [], [], []⟩ (str "srv") (by decide)

/-- Claim C4.  On a line whose first token is `@`-prefixed and with no source
token (here `"@meow;mlem PING abc"`), the source neither strips the `@` nor
parses the command from token 1: it leaves the command text empty, so parsing
returns `InvalidInput` instead of the Message the claim describes (tags
`["meow","mlem"]`, command `PING abc`). -/
theorem c4_tags_without_source :
    Message.fromStr (str "@meow;mlem PING abc") = PResult.invalidInput
    ∧ Message.fromStr (str "@meow;mlem PING abc")
        ≠ PResult.ok ⟨some [str "meow", str "mlem"], none, .PING (str "abc"), .Unknown⟩ := by
  decide

/-- Claim C5.  Replying to `PING abc123` on a session whose server address is
`srv` emits the frame `"PONG srv"`: `write_pong` ignores the token and appends
no CR LF, so the reply is not the claimed `"PONG srv :abc123" CR LF`. -/
theorem c5_pong_frame :
    (applyModel ⟨none, none, .PING (str "abc123"), .Client⟩ ⟨[], [], [], []⟩
        (str "srv")).2.2 = [str "PONG srv"]
    ∧ endsCRLF (str "PONG srv") = false
    ∧ str "PONG srv" ≠ str "PONG srv :abc123" ++ CRLF := by
  decide

/-- Claim C6.  Not every frame emitted by the connection layer ends with a
CR LF pair: `write_error("Goodbye!")` emits `"ERROR :Goodbye!"` with no
terminator. -/
theorem c6_error_frame_crlf :
    writeErrorFrame (str "Goodbye!") = str "ERROR :Goodbye!"
    ∧ endsCRLF (writeErrorFrame (str "Goodbye!")) = false := by
  decide

/-- Claim C7.  A `PrivMessage` broadcast envelope with channel list `channels`
whose message has source `src` is delivered to a session (the filter passes the
message on to apply) if and only if `src` differs from the session's username
and some joined channel of the session occurs in `channels`. -/
theorem c7_privmsg_delivery_filter (channels : List Str) (msg : Message)
    (info : ClientInfo) (src : Str) (h : msg.source = some src) :
    broadcastFilter (.PrivMessage channels msg) info = some msg
      ↔ src ≠ info.username ∧ ∃ a ∈ info.channels, a ∈ channels := by
  simp only [broadcastFilter, h]
  by_cases hc : src ≠ info.username ∧ (info.channels.any fun a => channels.contains a) = true
  · rw [if_pos hc]
    simp only [true_iff, iff_true]
    exact ⟨hc.1, any_contains_iff.1 hc.2⟩
  · rw [if_neg hc]
    constructor
    · intro e
      exact absurd e (by simp)
    · intro e
      exact absurd ⟨e.1, any_contains_iff.2 e.2⟩ hc

/-- Claim C7, witness: a message from `bob` on `#a` is delivered to a session
with username `alice` joined to `#a`. -/
theorem c7_privmsg_delivery_filter_witness :
    broadcastFilter
      (.PrivMessage [str "#a"]
        ⟨none, some (str "bob"), .PRIVMSG [str "#a"] (str "hi"), .Server⟩)
      ⟨[], str "alice", [], [str "#a"]⟩
      = some ⟨none, some (str "bob"), .PRIVMSG [str "#a"] (str "hi"), .Server⟩ :=
  (c7_privmsg_delivery_filter [str "#a"]
    ⟨none, some (str "bob"), .PRIVMSG [str "#a"] (str "hi"), .Server⟩
    ⟨[], str "alice", [], [str "#a"]⟩ (str "bob") rfl).2
    ⟨by decide, str "#a", by decide, by decide⟩

/-- Claim C8.  `Message::apply` returns `Code::Broadcast` only for messages
whose side is `Client`; in particular a message with side `Server` (a broadcast
received from the hub) is never re-broadcast. -/
theorem c8_broadcast_only_from_client (m : Message) (info : ClientInfo) (server : Str)
    (h : (applyModel m info server).2.1 = Code.Broadcast) : m.side = Side.Client := by
  rcases m with ⟨tags, source, cmd, side⟩
  cases cmd <;> cases side <;> simp_all [applyModel]

/-- Claim C8, witness: a client-side PRIVMSG returns `Broadcast` and has side
`Client`. -/
theorem c8_broadcast_only_from_client_witness :
    (applyModel ⟨none, none, .PRIVMSG [str "#a"] (str "hi"), .Client⟩
        ⟨[], [], [], []⟩ (str "srv")).2.1 = Code.Broadcast
    ∧ (⟨none, none, .PRIVMSG [str "#a"] (str "hi"), .Client⟩ : Message).side
        = Side.Client :=
  ⟨by decide, c8_broadcast_only_from_client
    ⟨none, none, .PRIVMSG [str "#a"] (str "hi"), .Client⟩ ⟨[], [], [], []⟩ (str "srv")
    (by decide)⟩

/-- Claim C9.  `Message::apply` leaves the session's `ClientInfo` unchanged
unless the command is NICK, USER, or JOIN; NICK changes only the nickname,
USER changes only the username and realname, and JOIN with side `Client`
changes only the channels list (appending the joined channels). -/
theorem c9_clientinfo_frame_conditions (m : Message) (info : ClientInfo) (server : Str) :
    (touchesInfo m.command = false → (applyModel m info server).1 = info)
    ∧ (∀ n, m.command = .NICK n →
        (applyModel m info server).1 = { info with nickname := n })
    ∧ (∀ u mo un r, m.command = .USER u mo un r →
        (applyModel m info server).1 = { info with username := u, realname := r })
    ∧ (∀ cs ks, m.command = .JOIN cs ks → m.side = .Client →
        (applyModel m info server).1 = { info with channels := info.channels ++ cs }) := by
  rcases m with ⟨tags, source, cmd, side⟩
  refine ⟨?_, ?_, ?_, ?_⟩
  · intro ht
    cases cmd <;> cases side <;> simp_all [applyModel, touchesInfo]
  · intro n hn
    simp only at hn
    subst hn
    simp [applyModel]
  · intro u mo un r hu
    simp only at hu
    subst hu
    simp [applyModel]
  · intro cs ks hc hs
    simp only at hc hs
    subst hc
    subst hs
    simp [applyModel]

/-- Claim C9, witness: applying a PING leaves the `ClientInfo` unchanged. -/
theorem c9_clientinfo_frame_conditions_witness :
    (applyModel ⟨none, none, .PING (str "x"), .Client⟩
        ⟨str "n", str "u", str "r", []⟩ (str "srv")).1 = ⟨str "n", str "u", str "r", []⟩ :=
  (c9_clientinfo_frame_conditions ⟨none, none, .PING (str "x"), .Client⟩
    ⟨str "n", str "u", str "r", []⟩ (str "srv")).1 (by decide)

/-- Claim C10.  A `PrivMessage` broadcast envelope whose message has no source
is delivered to no session: the filter returns `none` regardless of the
session's username or joined channels. -/
theorem c10_sourceless_broadcast_dropped (channels : List Str) (msg : Message)
    (info : ClientInfo) (h : msg.source = none) :
    broadcastFilter (.PrivMessage channels msg) info = none := by
  simp [broadcastFilter, h]

/-- Claim C10, witness at a session that is joined to the envelope's channel. -/
theorem c10_sourceless_broadcast_dropped_witness :
    broadcastFilter
      (.PrivMessage [str "#a"] ⟨none, none, .PRIVMSG [str "#a"] (str "hi"), .Server⟩)
      ⟨[], str "alice", [], [str "#a"]⟩ = none :=
  c10_sourceless_broadcast_dropped [str "#a"]
    ⟨none, none, .PRIVMSG [str "#a"] (str "hi"), .Server⟩
    ⟨[], str "alice", [], [str "#a"]⟩ rfl
